import Mathlib

/-!
Verification of the typed extraction pipeline of the Document-Parsing
repository (package `parsers`, `pkg/models/models.go`).

Strings are modelled as `List Char` (Go strings are sequences of bytes; all
data handled here is text, so a character list is the faithful shallow
embedding).  The Go standard-library functions used by the source
(`strings.TrimSpace`, `strings.TrimPrefix`, `strings.TrimSuffix`,
`encoding/json.Unmarshal`) are embedded below with their documented
semantics; the repository's own functions (`cleanJSONResponse`,
`jobDetailsPrompt`, `form941Prompt`, `ParseDocumentWithGeminiMultimodal`)
are translated line by line from `pkg/parsers` (src/unnamed/part_001).
-/

namespace DocParsing

/-- A Go string, modelled as a list of characters. -/
abbrev Str := List Char

/-- The backtick character. -/
def backtick : Char := Char.ofNat 96

/-- The opening-brace character. -/
def braceOpen : Char := Char.ofNat 123

/-- The closing-brace character. -/
def braceClose : Char := Char.ofNat 125

/-- The double-quote character. -/
def dquote : Char := Char.ofNat 34

/-- The backslash character. -/
def backslash : Char := Char.ofNat 92

/-! ## Go `strings` functions used by `cleanJSONResponse` -/

/-- The Unicode `White_Space` code points, which is exactly the set accepted
by Go's `unicode.IsSpace` (used by `strings.TrimSpace`). -/
def whiteSpaceCodes : List Nat :=
  [0x9, 0xA, 0xB, 0xC, 0xD, 0x20, 0x85, 0xA0, 0x1680,
   0x2000, 0x2001, 0x2002, 0x2003, 0x2004, 0x2005, 0x2006, 0x2007,
   0x2008, 0x2009, 0x200A, 0x2028, 0x2029, 0x202F, 0x205F, 0x3000]

/-- Go `unicode.IsSpace`. -/
def goIsSpace (c : Char) : Bool := whiteSpaceCodes.contains c.toNat

/-- Leading-whitespace trim (the left half of Go `strings.TrimSpace`). -/
def trimLeftWS (s : Str) : Str := s.dropWhile goIsSpace

/-- Trailing-whitespace trim (the right half of Go `strings.TrimSpace`). -/
def trimRightWS (s : Str) : Str := (s.reverse.dropWhile goIsSpace).reverse

/-- Go `strings.TrimSpace`. -/
def goTrimSpace (s : Str) : Str := trimRightWS (trimLeftWS s)

/-- `dropStart p s = some r` iff `s = p ++ r`; otherwise `none`. -/
def dropStart : Str → Str → Option Str
  | [], s => some s
  | _ :: _, [] => none
  | p :: ps, c :: cs => if p = c then dropStart ps cs else none

/-- Go `strings.TrimPrefix`: remove one leading copy of `p` if present. -/
def goTrimStart (p s : Str) : Str :=
  match dropStart p s with
  | some r => r
  | none => s

/-- Go `strings.TrimSuffix`: remove one trailing copy of `p` if present. -/
def goTrimEnd (p s : Str) : Str := (goTrimStart p.reverse s.reverse).reverse

/-! ## `cleanJSONResponse` (pkg/parsers) -/

/-- The seven-character opening fence with language tag, "```json". -/
def fenceJson : Str := "```json".data

/-- The bare three-backtick fence, "```". -/
def fence : Str := "```".data

/-- `cleanJSONResponse` from pkg/parsers: removes markdown code-block markers
from a JSON string.  The Go body is the exact composition
`TrimSpace (TrimSuffix "```" (TrimSpace (TrimPrefix "```" (TrimSpace
(TrimPrefix "```json" (TrimSpace s))))))`. -/
def cleanJSONResponse (s : Str) : Str :=
  goTrimSpace
    (goTrimEnd fence
      (goTrimSpace
        (goTrimStart fence
          (goTrimSpace
            (goTrimStart fenceJson
              (goTrimSpace s))))))

/-! ## The prompt texts (pkg/parsers), transcribed line by line -/

/-- The lines of `jobDetailsPrompt` in pkg/parsers. -/
def jobDetailsPromptLines : List String :=
  ["You are a document parser specialized in extracting job information.",
   "Extract the following details from the document: job title, salary, location, experience required, and employment type.",
   "",
   "Return ONLY a valid JSON object with the following structure:",
   "\x7b",
   "  \"title\": \"Job Title\",",
   "  \"salary\": \"Salary Information\",",
   "  \"location\": \"Job Location\",",
   "  \"experience\": \"Required Experience\",",
   "  \"employment-type\": \"Type of Employment (Full-time, Part-time, etc.)\"",
   "\x7d",
   "",
   "Do not include any explanations, markdown formatting, or additional text outside the JSON object.",
   "If you cannot find a specific field, use an empty string for that field."]

/-- `jobDetailsPrompt()` from pkg/parsers. -/
def jobDetailsPrompt : Str := (String.intercalate "\n" jobDetailsPromptLines).data

/-- The lines of `form941Prompt` in pkg/parsers. -/
def form941PromptLines : List String :=
  ["You are a document parser specialized in extracting tax-related information.",
   "Extract the following details from the document based on Form 941: EIN, name, trade name, address, and boxes 1–15.",
   "Note that EIN values are consistently formatted as separate digits that in a separate box, when combined, form a 9-digit number.",
   "All box fields except for Box 1 and Box 4 should follow this format: $11.11 — consisting of a dollar sign, one or more digits, a decimal point, and two digits.",
   "",
   "Return only a valid JSON object with the following structure:",
   "\x7b",
   "\t\"EIN\": \"123456789\",",
   "\t\"Name\": \"Company Name\",",
   "\t\"Trade name\": \"Trade name\",",
   "\t\"Address\": \"Full address\",",
   "\t\"Box 1\": \"111\",",
   "\t\"Box 2\": \"$22.22\",",
   "\t\"Box 3\": \"$33.33\",",
   "\t\"Box 4\": true or false,",
   "\t\"Box 5e\": \"$55.55\",",
   "\t\"Box 5f\": \"$55.55\",",
   "\t\"Box 6\": \"$66.66\",",
   "\t\"Box 7\": \"$77.77\",",
   "\t\"Box 8\": \"$88.88\",",
   "\t\"Box 9\": \"$99.99\",",
   "\t\"Box 10\": \"$100.00\",",
   "\t\"Box 11\": \"$111.11\",",
   "\t\"Box 12\": \"$121.21\",",
   "\t\"Box 13\": \"$121.21\",",
   "\t\"Box 14\": \"$121.21\",",
   "\t\"Box 15\": \"$121.21\"",
   "\x7d",
   "",
   "Do not include any explanations, markdown formatting, or additional text outside the JSON object.",
   "If you cannot find a specific field, use an empty string for that field."]

/-- `form941Prompt()` from pkg/parsers. -/
def form941Prompt : Str := (String.intercalate "\n" form941PromptLines).data

/-! ## A model of `encoding/json` values and scanning

`json.Unmarshal` is modelled in two layers, as the Go library documents it:
a scanner producing a JSON value, then population of the target struct,
field by field, matching keys exactly first and ASCII-case-insensitively
second, ignoring unknown keys, and rejecting wrong value kinds. -/

/-- A scanned JSON value.  Numbers are kept as their raw lexeme: every target
field of the two schemas is a string or a boolean, so a number can only ever
produce a type mismatch and its value is never consulted. -/
inductive JVal where
  | null
  | bool (b : Bool)
  | num (raw : Str)
  | str (s : Str)
  | arr (elems : List JVal)
  | obj (members : List (Str × JVal))

/-- JSON structural whitespace (the scanner's set: space, tab, LF, CR). -/
def jsonWS (c : Char) : Bool := c = ' ' ∨ c = '\t' ∨ c = '\n' ∨ c = '\r'

/-- Skip JSON structural whitespace. -/
def skipWS (s : Str) : Str := s.dropWhile jsonWS

/-- Value of one hexadecimal digit. -/
def hexVal (c : Char) : Option Nat :=
  if '0' ≤ c ∧ c ≤ '9' then some (c.toNat - '0'.toNat)
  else if 'a' ≤ c ∧ c ≤ 'f' then some (c.toNat - 'a'.toNat + 10)
  else if 'A' ≤ c ∧ c ≤ 'F' then some (c.toNat - 'A'.toNat + 10)
  else none

/-- Single-character escapes of the JSON grammar. -/
def unescape (c : Char) : Option Char :=
  if c = dquote then some dquote
  else if c = backslash then some backslash
  else if c = '/' then some '/'
  else if c = 'b' then some (Char.ofNat 8)
  else if c = 'f' then some (Char.ofNat 12)
  else if c = 'n' then some '\n'
  else if c = 'r' then some '\r'
  else if c = 't' then some '\t'
  else none

/-- Scan a JSON string body (after the opening quote), returning the decoded
characters and the rest of the input after the closing quote. -/
def scanStringBody : Str → Option (Str × Str)
  | [] => none
  | ch :: rest =>
      if ch = dquote then some ([], rest)
      else if ch = backslash then
        match rest with
        | 'u' :: a :: b :: c :: d :: r2 => do
            let va ← hexVal a
            let vb ← hexVal b
            let vc ← hexVal c
            let vd ← hexVal d
            let (tail, r) ← scanStringBody r2
            pure (Char.ofNat (((va * 16 + vb) * 16 + vc) * 16 + vd) :: tail, r)
        | e :: r2 => do
            let c2 ← unescape e
            let (tail, r) ← scanStringBody r2
            pure (c2 :: tail, r)
        | [] => none
      else if ch.toNat < 0x20 then none
      else do
        let (tail, r) ← scanStringBody rest
        pure (ch :: tail, r)

/-- Characters that may occur in a JSON number lexeme. -/
def numChar (c : Char) : Bool :=
  c.isDigit ∨ c = '-' ∨ c = '+' ∨ c = '.' ∨ c = 'e' ∨ c = 'E'

/-- Scan a JSON number lexeme (kept raw; see `JVal.num`). -/
def scanNumber (s : Str) : Option (Str × Str) :=
  match s with
  | [] => none
  | c :: _ =>
      if c.isDigit ∨ c = '-' then
        some (s.takeWhile numChar, s.dropWhile numChar)
      else none

mutual

/-- Scan one JSON value.  `fuel` bounds the nesting recursion; each recursive
call consumes at least one input character, so `length + 1` fuel always
suffices (see `parseJSONText`). -/
def scanVal : Nat → Str → Option (JVal × Str)
  | 0, _ => none
  | Nat.succ fuel, s =>
      match skipWS s with
      | 'n' :: 'u' :: 'l' :: 'l' :: r => some (.null, r)
      | 't' :: 'r' :: 'u' :: 'e' :: r => some (.bool true, r)
      | 'f' :: 'a' :: 'l' :: 's' :: 'e' :: r => some (.bool false, r)
      | '\x7b' :: r =>
          (match skipWS r with
           | '\x7d' :: r1 => some (.obj [], r1)
           | r1 => do
               let (kvs, r2) ← scanMembers fuel r1
               pure (.obj kvs, r2))
      | '[' :: r =>
          (match skipWS r with
           | ']' :: r1 => some (.arr [], r1)
           | r1 => do
               let (es, r2) ← scanElems fuel r1
               pure (.arr es, r2))
      | c :: r =>
          if c = dquote then do
            let (body, r1) ← scanStringBody r
            pure (.str body, r1)
          else do
            let (raw, r1) ← scanNumber (c :: r)
            pure (.num raw, r1)
      | [] => none

/-- Scan the members of a JSON object after a first non-`}` character has
been seen, up to and including the closing brace. -/
def scanMembers : Nat → Str → Option (List (Str × JVal) × Str)
  | 0, _ => none
  | Nat.succ fuel, s =>
      match skipWS s with
      | c :: r =>
          if c = dquote then do
            let (key, r1) ← scanStringBody r
            match skipWS r1 with
            | ':' :: r2 => do
                let (v, r3) ← scanVal fuel r2
                match skipWS r3 with
                | ',' :: r4 => do
                    let (kvs, r5) ← scanMembers fuel r4
                    pure ((key, v) :: kvs, r5)
                | '\x7d' :: r4 => pure ([(key, v)], r4)
                | _ => none
            | _ => none
          else none
      | [] => none

/-- Scan the elements of a JSON array after a first non-`]` character has
been seen, up to and including the closing bracket. -/
def scanElems : Nat → Str → Option (List JVal × Str)
  | 0, _ => none
  | Nat.succ fuel, s => do
      let (v, r) ← scanVal fuel s
      match skipWS r with
      | ',' :: r1 => do
          let (es, r2) ← scanElems fuel r1
          pure (v :: es, r2)
      | ']' :: r1 => pure ([v], r1)
      | _ => none

end

/-- Scan a complete JSON text: one value, then only trailing whitespace, as
`json.Unmarshal` requires. -/
def parseJSONText (s : Str) : Option JVal :=
  match scanVal (s.length + 1) s with
  | some (v, rest) => if skipWS rest = [] then some v else none
  | none => none

/-! ## The target schemas (pkg/models/models.go) -/

/-- `models.JobDetails`. -/
structure JobDetails where
  Title : Str
  Salary : Str
  Location : Str
  Experience : Str
  EmploymentType : Str
deriving Repr, DecidableEq

/-- The zero value of `models.JobDetails`. -/
def JobDetails.zero : JobDetails := ⟨[], [], [], [], []⟩

/-- `models.Form941`. -/
structure Form941 where
  EIN : Str
  Name : Str
  TradeName : Str
  Address : Str
  Box1 : Str
  Box2 : Str
  Box3 : Str
  Box4 : Bool
  Box5e : Str
  Box5f : Str
  Box6 : Str
  Box7 : Str
  Box8 : Str
  Box9 : Str
  Box10 : Str
  Box11 : Str
  Box12 : Str
  Box13 : Str
  Box14 : Str
deriving Repr, DecidableEq

/-- The zero value of `models.Form941`. -/
def Form941.zero : Form941 :=
  ⟨[], [], [], [], [], [], [], false, [], [], [], [], [], [], [], [], [], [], []⟩

/-- The JSON tags of `models.JobDetails`, in declaration order. -/
def jobDetailsTags : List Str :=
  ["title", "salary", "location", "experience", "employment-type"].map String.data

/-- The JSON tags of `models.Form941`, in declaration order. -/
def form941Tags : List Str :=
  ["EIN", "Name", "Trade Name", "Address", "Box 1", "Box 2", "Box 3", "Box 4",
   "Box 5e", "Box 5f", "Box 6", "Box 7", "Box 8", "Box 9", "Box 10", "Box 11",
   "Box 12", "Box 13", "Box 14"].map String.data

/-! ## `json.Unmarshal` struct population -/

/-- ASCII case folding, as used by `encoding/json` key matching for the
ASCII-only tags of these schemas. -/
def foldChar (c : Char) : Char :=
  if 'A' ≤ c ∧ c ≤ 'Z' then Char.ofNat (c.toNat + 32) else c

/-- ASCII-case-insensitive equality of two strings. -/
def eqFold (a b : Str) : Bool := a.map foldChar = b.map foldChar

/-- Index of the first element satisfying `p` (the reflection loop of
`encoding/json` field lookup). -/
def idxOfP (p : Str → Bool) : List Str → Option Nat
  | [] => none
  | t :: ts => if p t then some 0 else (idxOfP p ts).map (· + 1)

/-- `encoding/json` key-to-field resolution: an exact tag match wins;
otherwise the first case-insensitive match; otherwise the key is unknown. -/
def matchFieldIdx (tags : List Str) (k : Str) : Option Nat :=
  match idxOfP (fun t => t = k) tags with
  | some i => some i
  | none => idxOfP (fun t => eqFold t k) tags

/-- Decode-failure taxonomy of `json.Unmarshal` as observed by the caller. -/
inductive JErr where
  | syntaxError
  | typeMismatch (field : Str)
deriving Repr, DecidableEq

/-- Whether a scanned value is a JSON string. -/
def JVal.isStr : JVal → Bool
  | .str _ => true
  | _ => false

/-- Whether a scanned value is a JSON boolean. -/
def JVal.isBool : JVal → Bool
  | .bool _ => true
  | _ => false

/-- Store a scanned value into a `string` struct field: a string replaces it,
`null` leaves it unchanged, anything else is a type mismatch. -/
def storeStr (v : JVal) (field : Str) (old : Str) : Except JErr Str :=
  match v with
  | .null => .ok old
  | .str s => .ok s
  | _ => .error (.typeMismatch field)

/-- Store a scanned value into a `bool` struct field. -/
def storeBool (v : JVal) (field : Str) (old : Bool) : Except JErr Bool :=
  match v with
  | .null => .ok old
  | .bool b => .ok b
  | _ => .error (.typeMismatch field)

/-- A decode target shape, as `json.Unmarshal`'s reflection sees it: the tag
list, the zero value, a typed store into field `i`, and a read-back of field
`i` as a JSON value (for stating faithfulness). -/
structure GoSchema (α : Type) where
  tags : List Str
  zero : α
  setF : α → Nat → JVal → Except JErr α
  getF : α → Nat → JVal

/-- Store into `models.JobDetails` by field index. -/
def JobDetails.setF (r : JobDetails) (i : Nat) (v : JVal) : Except JErr JobDetails :=
  match i with
  | 0 => (storeStr v "title".data r.Title).map (fun s => { r with Title := s })
  | 1 => (storeStr v "salary".data r.Salary).map (fun s => { r with Salary := s })
  | 2 => (storeStr v "location".data r.Location).map (fun s => { r with Location := s })
  | 3 => (storeStr v "experience".data r.Experience).map (fun s => { r with Experience := s })
  | 4 => (storeStr v "employment-type".data r.EmploymentType).map
      (fun s => { r with EmploymentType := s })
  | _ => .ok r

/-- Read `models.JobDetails` by field index. -/
def JobDetails.getF (r : JobDetails) : Nat → JVal
  | 0 => .str r.Title
  | 1 => .str r.Salary
  | 2 => .str r.Location
  | 3 => .str r.Experience
  | 4 => .str r.EmploymentType
  | _ => .null

/-- Store into `models.Form941` by field index. -/
def Form941.setF (r : Form941) (i : Nat) (v : JVal) : Except JErr Form941 :=
  match i with
  | 0 => (storeStr v "EIN".data r.EIN).map (fun s => { r with EIN := s })
  | 1 => (storeStr v "Name".data r.Name).map (fun s => { r with Name := s })
  | 2 => (storeStr v "Trade Name".data r.TradeName).map (fun s => { r with TradeName := s })
  | 3 => (storeStr v "Address".data r.Address).map (fun s => { r with Address := s })
  | 4 => (storeStr v "Box 1".data r.Box1).map (fun s => { r with Box1 := s })
  | 5 => (storeStr v "Box 2".data r.Box2).map (fun s => { r with Box2 := s })
  | 6 => (storeStr v "Box 3".data r.Box3).map (fun s => { r with Box3 := s })
  | 7 => (storeBool v "Box 4".data r.Box4).map (fun b => { r with Box4 := b })
  | 8 => (storeStr v "Box 5e".data r.Box5e).map (fun s => { r with Box5e := s })
  | 9 => (storeStr v "Box 5f".data r.Box5f).map (fun s => { r with Box5f := s })
  | 10 => (storeStr v "Box 6".data r.Box6).map (fun s => { r with Box6 := s })
  | 11 => (storeStr v "Box 7".data r.Box7).map (fun s => { r with Box7 := s })
  | 12 => (storeStr v "Box 8".data r.Box8).map (fun s => { r with Box8 := s })
  | 13 => (storeStr v "Box 9".data r.Box9).map (fun s => { r with Box9 := s })
  | 14 => (storeStr v "Box 10".data r.Box10).map (fun s => { r with Box10 := s })
  | 15 => (storeStr v "Box 11".data r.Box11).map (fun s => { r with Box11 := s })
  | 16 => (storeStr v "Box 12".data r.Box12).map (fun s => { r with Box12 := s })
  | 17 => (storeStr v "Box 13".data r.Box13).map (fun s => { r with Box13 := s })
  | 18 => (storeStr v "Box 14".data r.Box14).map (fun s => { r with Box14 := s })
  | _ => .ok r

/-- Read `models.Form941` by field index. -/
def Form941.getF (r : Form941) : Nat → JVal
  | 0 => .str r.EIN
  | 1 => .str r.Name
  | 2 => .str r.TradeName
  | 3 => .str r.Address
  | 4 => .str r.Box1
  | 5 => .str r.Box2
  | 6 => .str r.Box3
  | 7 => .bool r.Box4
  | 8 => .str r.Box5e
  | 9 => .str r.Box5f
  | 10 => .str r.Box6
  | 11 => .str r.Box7
  | 12 => .str r.Box8
  | 13 => .str r.Box9
  | 14 => .str r.Box10
  | 15 => .str r.Box11
  | 16 => .str r.Box12
  | 17 => .str r.Box13
  | 18 => .str r.Box14
  | _ => .null

/-- The `JobDetails` decode shape. -/
def jobDetailsSchema : GoSchema JobDetails :=
  ⟨jobDetailsTags, JobDetails.zero, JobDetails.setF, JobDetails.getF⟩

/-- The `Form941` decode shape. -/
def form941Schema : GoSchema Form941 :=
  ⟨form941Tags, Form941.zero, Form941.setF, Form941.getF⟩

/-- Process one object member: resolve the key and store its value; unknown
keys are ignored, as `json.Unmarshal` does. -/
def assignKey (S : GoSchema α) (r : α) (k : Str) (v : JVal) : Except JErr α :=
  match matchFieldIdx S.tags k with
  | some i => S.setF r i v
  | none => .ok r

/-- Process the members of a scanned object in order (a later duplicate key
overwrites an earlier one). -/
def decodeMembers (S : GoSchema α) : α → List (Str × JVal) → Except JErr α
  | r, [] => .ok r
  | r, (k, v) :: rest =>
      match assignKey S r k v with
      | .ok r1 => decodeMembers S r1 rest
      | .error e => .error e

/-- `json.Unmarshal` of a text into a struct of shape `S`: scan the text,
require a top-level object, and populate the zero value member by member. -/
def goUnmarshal (S : GoSchema α) (s : Str) : Except JErr α :=
  match parseJSONText s with
  | none => .error .syntaxError
  | some (.obj kvs) => decodeMembers S S.zero kvs
  | some _ => .error (.typeMismatch [])

/-- `json.Unmarshal` into `models.JobDetails`. -/
def unmarshalJobDetails (s : Str) : Except JErr JobDetails := goUnmarshal jobDetailsSchema s

/-- `json.Unmarshal` into `models.Form941`. -/
def unmarshalForm941 (s : Str) : Except JErr Form941 := goUnmarshal form941Schema s

/-! ## `ParseDocumentWithGeminiMultimodal` (pkg/parsers) -/

/-- A part of the request sent to the model (`genai.Part`). -/
inductive Part where
  | text (s : Str)
  | blob (mimeType : Str) (data : List Nat)
deriving Repr, DecidableEq

/-- A part of the model's reply: the `genai.Text` case the code accepts, or
any other part type (the failed type assertion). -/
inductive RespPart where
  | text (s : Str)
  | other
deriving Repr, DecidableEq

/-- One reply candidate (`resp.Candidates[i].Content.Parts`). -/
structure Candidate where
  parts : List RespPart
deriving Repr, DecidableEq

/-- The model reply (`resp.Candidates`). -/
structure GenResponse where
  candidates : List Candidate
deriving Repr, DecidableEq

/-- The outcome of `model.GenerateContent`: a transport error or a reply. -/
inductive GenOutcome where
  | failure (msg : Str)
  | success (resp : GenResponse)

/-- The error classification of `ParseDocumentWithGeminiMultimodal`, one
constructor per `return zero, fmt.Errorf(...)` site. -/
inductive ParseError where
  | unsupportedDocumentType (dt : Str)
  | apiError (msg : Str)
  | emptyResponse
  | unexpectedResponseFormat
  | decodeError (e : JErr) (response : Str)
deriving Repr, DecidableEq

/-- `models.JobDetailsType`. -/
def jobDetailsType : Str := "job_details".data

/-- `models.Form941Type`. -/
def form941Type : Str := "form_941".data

/-- `ParseDocumentWithGeminiMultimodal`, with the external model call
abstracted as `gen`.  Returns the Go pair `(T, error)` (zero value alongside
every error, as each `return zero, ...` site does) together with the list of
prompts actually sent to the model (empty when no call is made). -/
def parseDocumentRun (S : GoSchema α) (fileContent : List Nat) (mimeType : Str)
    (docType : Str) (gen : List Part → GenOutcome) :
    (α × Option ParseError) × List (List Part) :=
  match (if docType = jobDetailsType then some jobDetailsPrompt
         else if docType = form941Type then some form941Prompt
         else none) with
  | none => ((S.zero, some (.unsupportedDocumentType docType)), [])
  | some schemaInstruction =>
      let prompt : List Part := [.text schemaInstruction, .blob mimeType fileContent]
      match gen prompt with
      | .failure msg => ((S.zero, some (.apiError msg)), [prompt])
      | .success resp =>
          match resp.candidates with
          | [] => ((S.zero, some .emptyResponse), [prompt])
          | c0 :: _ =>
              match c0.parts with
              | [] => ((S.zero, some .emptyResponse), [prompt])
              | .other :: _ => ((S.zero, some .unexpectedResponseFormat), [prompt])
              | .text content :: _ =>
                  let jsonStr := cleanJSONResponse content
                  match goUnmarshal S jsonStr with
                  | .error e => ((S.zero, some (.decodeError e jsonStr)), [prompt])
                  | .ok result => ((result, none), [prompt])

/-! ## Extracting the example keys of a prompt

A key of the example object in a prompt is a quoted run of characters
immediately followed by a colon; values are never followed by a colon, so
this scan recovers exactly the example object's keys. -/

/-- Scanner state machine: outside a quoted run (`none`) or inside one with
the characters seen so far (`some acc`, reversed). -/
def keysAux : Str → Option Str → List Str
  | [], _ => []
  | c :: rest, none =>
      if c = dquote then keysAux rest (some []) else keysAux rest none
  | c :: rest, some acc =>
      if c = dquote then
        match rest with
        | c2 :: r2 =>
            if c2 = ':' then acc.reverse :: keysAux r2 none
            else if c2 = dquote then keysAux r2 (some [])
            else keysAux r2 none
        | [] => []
      else keysAux rest (some (c :: acc))

/-- The keys of the example JSON object embedded in a prompt text. -/
def quotedKeys (s : Str) : List Str := keysAux s none

/-! ## Derived notions used by the statements -/

/-- The last binding of a key in an object's member list — the one that
survives `json.Unmarshal`'s in-order overwriting. -/
def lookupLast (kvs : List (Str × JVal)) (t : Str) : Option JVal :=
  match kvs with
  | [] => none
  | (k, v) :: rest =>
      match lookupLast rest t with
      | some w => some w
      | none => if k = t then some v else none

/-- Well-typedness of a value for field `i` of `Form941`: field 7 (tag
`Box 4`) is the boolean, every other declared field is a string. -/
def wt941 (i : Nat) (v : JVal) : Bool := if i = 7 then v.isBool else v.isStr

/-- Well-typedness of a value for a `JobDetails` field: all five are strings. -/
def wtJob (_ : Nat) (v : JVal) : Bool := v.isStr

/-- The text carried by a request part, if any. -/
def Part.textOf : Part → Option Str
  | .text s => some s
  | .blob _ _ => none

/-- The spec's Scenario A response text: a well-typed `job_details` object. -/
def jobExampleText : Str :=
  "\x7b\"title\":\"Engineer\",\"salary\":\"\",\"location\":\"NYC\",\"experience\":\"\",\"employment-type\":\"Full-time\"\x7d".data

/-- The member list the scanner recovers from `jobExampleText`. -/
def jobExampleKvs : List (Str × JVal) :=
  [("title".data, .str "Engineer".data), ("salary".data, .str []),
   ("location".data, .str "NYC".data), ("experience".data, .str []),
   ("employment-type".data, .str "Full-time".data)]

/-- A well-typed Form 941 object text carrying exactly the 19 declared
fields. -/
def form941ExampleText : Str :=
  ("\x7b\"EIN\":\"123456789\",\"Name\":\"Acme\",\"Trade Name\":\"Acme Co\",\"Address\":\"1 Main St\","
    ++ "\"Box 1\":\"2\",\"Box 2\":\"$2.00\",\"Box 3\":\"$3.00\",\"Box 4\":true,"
    ++ "\"Box 5e\":\"$5.00\",\"Box 5f\":\"$5.00\",\"Box 6\":\"$6.00\",\"Box 7\":\"$7.00\","
    ++ "\"Box 8\":\"$8.00\",\"Box 9\":\"$9.00\",\"Box 10\":\"$10.00\",\"Box 11\":\"$11.00\","
    ++ "\"Box 12\":\"$12.00\",\"Box 13\":\"$13.00\",\"Box 14\":\"$14.00\"\x7d").data

/-- The member list the scanner recovers from `form941ExampleText`. -/
def form941ExampleKvs : List (Str × JVal) :=
  [("EIN".data, .str "123456789".data), ("Name".data, .str "Acme".data),
   ("Trade Name".data, .str "Acme Co".data), ("Address".data, .str "1 Main St".data),
   ("Box 1".data, .str "2".data), ("Box 2".data, .str "$2.00".data),
   ("Box 3".data, .str "$3.00".data), ("Box 4".data, .bool true),
   ("Box 5e".data, .str "$5.00".data), ("Box 5f".data, .str "$5.00".data),
   ("Box 6".data, .str "$6.00".data), ("Box 7".data, .str "$7.00".data),
   ("Box 8".data, .str "$8.00".data), ("Box 9".data, .str "$9.00".data),
   ("Box 10".data, .str "$10.00".data), ("Box 11".data, .str "$11.00".data),
   ("Box 12".data, .str "$12.00".data), ("Box 13".data, .str "$13.00".data),
   ("Box 14".data, .str "$14.00".data)]

/-! ## Lemmas about the Go string functions -/

theorem dropWhile_head? (p : Char → Bool) (l : Str) (c : Char)
    (hc : l.head? = some c) (hp : p c = false) : l.dropWhile p = l := by
  cases l with
  | nil => rfl
  | cons a t =>
      simp only [List.head?_cons, Option.some.injEq] at hc
      subst hc
      simp [List.dropWhile_cons, hp]

theorem dropWhile_idem (p : Char → Bool) (l : Str) :
    (l.dropWhile p).dropWhile p = l.dropWhile p := by
  induction l with
  | nil => rfl
  | cons a t ih =>
      by_cases h : p a
      · simp [List.dropWhile_cons, h, ih]
      · simp [List.dropWhile_cons, h]

theorem trimLeftWS_head (s : Str) (c : Char) (hc : s.head? = some c)
    (hp : goIsSpace c = false) : trimLeftWS s = s :=
  dropWhile_head? goIsSpace s c hc hp

theorem trimRightWS_last (s : Str) (c : Char) (hc : s.getLast? = some c)
    (hp : goIsSpace c = false) : trimRightWS s = s := by
  unfold trimRightWS
  rw [dropWhile_head? goIsSpace s.reverse c (by rw [List.head?_reverse]; exact hc) hp,
    List.reverse_reverse]

theorem goTrimSpace_id (s : Str) (a b : Char) (ha : s.head? = some a)
    (hpa : goIsSpace a = false) (hb : s.getLast? = some b)
    (hpb : goIsSpace b = false) : goTrimSpace s = s := by
  unfold goTrimSpace
  rw [trimLeftWS_head s a ha hpa, trimRightWS_last s b hb hpb]

theorem trimLeftWS_cons_space (c : Char) (s : Str) (h : goIsSpace c = true) :
    trimLeftWS (c :: s) = trimLeftWS s := by
  simp [trimLeftWS, List.dropWhile_cons, h]

theorem dropStart_self_append (p r : Str) : dropStart p (p ++ r) = some r := by
  induction p with
  | nil => rfl
  | cons a ps ih => simp [dropStart, ih]

theorem dropStart_eq_some (p : Str) : ∀ s r, dropStart p s = some r → s = p ++ r := by
  induction p with
  | nil =>
      intro s r h
      simp only [dropStart, Option.some.injEq] at h
      simp [h]
  | cons a ps ih =>
      intro s r h
      cases s with
      | nil => simp [dropStart] at h
      | cons c cs =>
          simp only [dropStart] at h
          by_cases hac : a = c
          · rw [if_pos hac] at h
            rw [List.cons_append, ← ih cs r h, hac]
          · rw [if_neg hac] at h
            exact absurd h (by simp)

theorem goTrimStart_self_append (p r : Str) : goTrimStart p (p ++ r) = r := by
  simp [goTrimStart, dropStart_self_append]

theorem goTrimStart_ne (p s : Str) (a c : Char) (hp : p.head? = some a)
    (hs : s.head? = some c) (hne : a ≠ c) : goTrimStart p s = s := by
  cases p with
  | nil => simp at hp
  | cons a' ps =>
      cases s with
      | nil => simp at hs
      | cons c' cs =>
          simp only [List.head?_cons, Option.some.injEq] at hp hs
          subst hp; subst hs
          simp [goTrimStart, dropStart, hne]

theorem goTrimEnd_append_self (p r : Str) : goTrimEnd p (r ++ p) = r := by
  simp [goTrimEnd, List.reverse_append, goTrimStart_self_append]

theorem goTrimEnd_ne (p s : Str) (a c : Char) (hp : p.reverse.head? = some a)
    (hs : s.getLast? = some c) (hne : a ≠ c) : goTrimEnd p s = s := by
  unfold goTrimEnd
  rw [goTrimStart_ne p.reverse s.reverse a c hp (by rw [List.head?_reverse]; exact hs) hne,
    List.reverse_reverse]

theorem head?_append_some (j x : Str) (c : Char) (h : j.head? = some c) :
    (j ++ x).head? = some c := by
  cases j with
  | nil => simp at h
  | cons a t => simpa using h

/-- On a brace-delimited text (head `{`, last `}`) the sanitizer is the
identity: no trim step fires. -/
theorem clean_braced_id (j : Str) (hj1 : j.head? = some braceOpen)
    (hjr : j.reverse.head? = some braceClose) : cleanJSONResponse j = j := by
  have hjl : j.getLast? = some braceClose := (List.head?_reverse j).symm.trans hjr
  have hid : goTrimSpace j = j := goTrimSpace_id j braceOpen braceClose hj1 (by decide) hjl (by decide)
  unfold cleanJSONResponse
  rw [hid, goTrimStart_ne fenceJson j backtick braceOpen rfl hj1 (by decide), hid,
    goTrimStart_ne fence j backtick braceOpen rfl hj1 (by decide), hid,
    goTrimEnd_ne fence j backtick braceClose rfl hjl (by decide), hid]

/-- The tail of the fenced computation for C5: after the leading
`TrimPrefix` steps have removed the opening fence, the remaining trims on
`'\n' :: j ++ "\n```"` leave exactly `j`. -/
theorem clean_tail_steps (j : Str) (hj1 : j.head? = some braceOpen)
    (hjr1 : j.reverse.head? = some braceClose) :
    goTrimSpace (goTrimEnd fence (goTrimSpace (goTrimStart fence
      (goTrimSpace ('\n' :: (j ++ '\n' :: fence)))))) = j := by
  have hlast : (j ++ '\n' :: fence).getLast? = some backtick := by
    rw [← List.head?_reverse, List.reverse_append]
    exact head?_append_some (('\n' :: fence).reverse) j.reverse backtick (by decide)
  have hja : (j ++ '\n' :: fence).head? = some braceOpen := head?_append_some j _ braceOpen hj1
  have h1 : goTrimSpace ('\n' :: (j ++ '\n' :: fence)) = j ++ '\n' :: fence := by
    unfold goTrimSpace
    rw [trimLeftWS_cons_space _ _ (by decide),
      trimLeftWS_head _ braceOpen hja (by decide),
      trimRightWS_last _ backtick hlast (by decide)]
  rw [h1, goTrimStart_ne fence _ backtick braceOpen rfl hja (by decide),
    goTrimSpace_id _ braceOpen backtick hja (by decide) hlast (by decide),
    show j ++ '\n' :: fence = (j ++ ['\n']) ++ fence by simp,
    goTrimEnd_append_self]
  unfold goTrimSpace
  rw [trimLeftWS_head _ braceOpen (head?_append_some j _ braceOpen hj1) (by decide)]
  unfold trimRightWS
  rw [show (j ++ ['\n']).reverse = '\n' :: j.reverse by simp]
  rw [show List.dropWhile goIsSpace ('\n' :: j.reverse) = List.dropWhile goIsSpace j.reverse by
    simp [List.dropWhile_cons, show goIsSpace '\n' = true from rfl]]
  rw [dropWhile_head? goIsSpace j.reverse braceClose hjr1 (by decide), List.reverse_reverse]

/-- The tail of the fenced computation for C6's upper-case tag: after the
bare-fence `TrimPrefix` step, the text still starts with the tag `JSON`,
and the remaining trims leave `"JSON\n" ++ j`. -/
theorem clean_tail_upper (j : Str) (hjr1 : j.reverse.head? = some braceClose) :
    goTrimSpace (goTrimEnd fence (goTrimSpace ("JSON\n".data ++ (j ++ '\n' :: fence))))
      = "JSON\n".data ++ j := by
  have hshape : "JSON\n".data ++ (j ++ '\n' :: fence)
      = ("JSON\n".data ++ j) ++ ('\n' :: fence) := by simp
  have hlast : ("JSON\n".data ++ (j ++ '\n' :: fence)).getLast? = some backtick := by
    rw [hshape, ← List.head?_reverse, List.reverse_append]
    exact head?_append_some (('\n' :: fence).reverse) _ backtick (by decide)
  rw [goTrimSpace_id ("JSON\n".data ++ (j ++ '\n' :: fence)) 'J' backtick (by rfl) (by decide)
      hlast (by decide), hshape,
    show ("JSON\n".data ++ j) ++ ('\n' :: fence) = (("JSON\n".data ++ j) ++ ['\n']) ++ fence
      by simp,
    goTrimEnd_append_self]
  unfold goTrimSpace
  rw [trimLeftWS_head (("JSON\n".data ++ j) ++ ['\n']) 'J' (by rfl) (by decide)]
  unfold trimRightWS
  rw [show (("JSON\n".data ++ j) ++ ['\n']).reverse = '\n' :: ("JSON\n".data ++ j).reverse
      by simp]
  rw [show List.dropWhile goIsSpace ('\n' :: ("JSON\n".data ++ j).reverse)
      = List.dropWhile goIsSpace (("JSON\n".data ++ j).reverse) by
    simp [List.dropWhile_cons, show goIsSpace '\n' = true from rfl]]
  have hrevhead : (("JSON\n".data ++ j).reverse).head? = some braceClose := by
    rw [List.reverse_append]
    exact head?_append_some j.reverse _ braceClose hjr1
  rw [dropWhile_head? goIsSpace _ braceClose hrevhead (by decide), List.reverse_reverse]

/-! ## Idempotence machinery for the sanitizer -/

theorem trimRightWS_pre (s : Str) : trimRightWS s <+: s := by
  obtain ⟨t, ht⟩ := List.dropWhile_suffix (l := s.reverse) goIsSpace
  refine ⟨t.reverse, ?_⟩
  have := congrArg List.reverse ht
  simpa [List.reverse_append] using this

theorem goTrimSpace_isSub (s : Str) : goTrimSpace s <:+: s := by
  have h1 : trimRightWS (trimLeftWS s) <+: trimLeftWS s := trimRightWS_pre _
  have h2 : trimLeftWS s <:+ s := List.dropWhile_suffix goIsSpace
  exact (h1.isInfix).trans h2.isInfix

theorem head_not_sat_of_dropWhile_eq (p : Char → Bool) (c : Char) (x : Str)
    (h : List.dropWhile p (c :: x) = c :: x) : p c = false := by
  by_cases hp : p c
  · rw [List.dropWhile_cons, if_pos hp] at h
    have hlen := (List.dropWhile_suffix (l := x) p).length_le
    rw [h] at hlen
    simp at hlen
  · simpa using hp

theorem trimLeftWS_of_trimRightWS (y : Str) (h : trimLeftWS y = y) :
    trimLeftWS (trimRightWS y) = trimRightWS y := by
  cases hr : trimRightWS y with
  | nil => rfl
  | cons c t =>
      obtain ⟨r, hrr⟩ := trimRightWS_pre y
      rw [hr] at hrr
      have hy : y = c :: (t ++ r) := by rw [← hrr]; simp
      have hc : goIsSpace c = false := by
        apply head_not_sat_of_dropWhile_eq goIsSpace c (t ++ r)
        rw [← hy]
        exact h
      simp [trimLeftWS, List.dropWhile_cons, hc]

theorem trimRightWS_idem (y : Str) : trimRightWS (trimRightWS y) = trimRightWS y := by
  unfold trimRightWS
  rw [List.reverse_reverse, dropWhile_idem]

theorem goTrimSpace_idem (s : Str) : goTrimSpace (goTrimSpace s) = goTrimSpace s := by
  unfold goTrimSpace
  rw [trimLeftWS_of_trimRightWS (trimLeftWS s) (dropWhile_idem goIsSpace s),
    trimRightWS_idem]

theorem goTrimStart_no_fence (p q s : Str) (hq : q <+: p) (h : ¬ (q <:+: s)) :
    goTrimStart p s = s := by
  unfold goTrimStart
  cases hd : dropStart p s with
  | none => rfl
  | some r =>
      exfalso
      apply h
      obtain ⟨w, hw⟩ := hq
      refine ⟨[], w ++ r, ?_⟩
      rw [dropStart_eq_some p s r hd, ← hw]
      simp

theorem goTrimEnd_no_fence (p q s : Str) (hq : q <:+ p) (h : ¬ (q <:+: s)) :
    goTrimEnd p s = s := by
  unfold goTrimEnd
  cases hd : dropStart p.reverse s.reverse with
  | none => simp [goTrimStart, hd]
  | some r =>
      exfalso
      apply h
      have hs : s.reverse = p.reverse ++ r := dropStart_eq_some _ _ _ hd
      have hs2 : s = r.reverse ++ p := by
        have := congrArg List.reverse hs
        simpa [List.reverse_append] using this
      obtain ⟨w, hw⟩ := hq
      exact ⟨r.reverse ++ w, [], by rw [hs2, ← hw]; simp⟩

/-- Without a fence marker anywhere in the input, the sanitizer is exactly
`strings.TrimSpace`. -/
theorem clean_no_fence (x : Str) (h : ¬ (fence <:+: x)) :
    cleanJSONResponse x = goTrimSpace x := by
  have h1 : ¬ (fence <:+: goTrimSpace x) := fun hc => h (hc.trans (goTrimSpace_isSub x))
  unfold cleanJSONResponse
  rw [goTrimStart_no_fence fenceJson fence (goTrimSpace x) ⟨"json".data, rfl⟩ h1,
    goTrimSpace_idem,
    goTrimStart_no_fence fence fence (goTrimSpace x) ⟨[], by simp⟩ h1,
    goTrimSpace_idem,
    goTrimEnd_no_fence fence fence (goTrimSpace x) ⟨[], by simp⟩ h1,
    goTrimSpace_idem]

/-- Sanitizing a lower-case-tagged fenced block around a brace-delimited body
recovers exactly the body. -/
theorem clean_fenced_lower (j : Str) (h1 : j.head? = some braceOpen)
    (hjr : j.reverse.head? = some braceClose) :
    cleanJSONResponse ("```json\n".data ++ j ++ "\n```".data) = j := by
  have hw : ("```json\n".data ++ j) ++ "\n```".data
      = fenceJson ++ ('\n' :: (j ++ '\n' :: fence)) := by
    rw [List.append_assoc, show "```json\n".data = fenceJson ++ ['\n'] from rfl,
      List.append_assoc]
    rfl
  have hlastw : (fenceJson ++ ('\n' :: (j ++ '\n' :: fence))).getLast? = some backtick := by
    rw [show fenceJson ++ ('\n' :: (j ++ '\n' :: fence))
        = (fenceJson ++ '\n' :: j) ++ ('\n' :: fence) by simp, ← List.head?_reverse,
      List.reverse_append]
    exact head?_append_some (('\n' :: fence).reverse) _ backtick (by decide)
  rw [hw]
  unfold cleanJSONResponse
  rw [goTrimSpace_id (fenceJson ++ ('\n' :: (j ++ '\n' :: fence))) backtick backtick
      (by rfl) (by decide) hlastw (by decide),
    goTrimStart_self_append]
  exact clean_tail_steps j h1 hjr

/-- Sanitizing an upper-case-tagged fenced block strips only the backticks:
the tag text `JSON` and its newline remain at the head of the result. -/
theorem clean_fenced_upper (j : Str) (hjr : j.reverse.head? = some braceClose) :
    cleanJSONResponse ("```JSON\n".data ++ j ++ "\n```".data) = "JSON\n".data ++ j := by
  have hw : ("```JSON\n".data ++ j) ++ "\n```".data
      = "```JSON\n".data ++ (j ++ '\n' :: fence) := by
    rw [List.append_assoc]
    rfl
  have hhead : ("```JSON\n".data ++ (j ++ '\n' :: fence)).head? = some backtick :=
    head?_append_some "```JSON\n".data _ backtick (by decide)
  have hlastw : ("```JSON\n".data ++ (j ++ '\n' :: fence)).getLast? = some backtick := by
    rw [show "```JSON\n".data ++ (j ++ '\n' :: fence)
        = ("```JSON\n".data ++ j) ++ ('\n' :: fence) by simp, ← List.head?_reverse,
      List.reverse_append]
    exact head?_append_some (('\n' :: fence).reverse) _ backtick (by decide)
  have hnof : dropStart fenceJson ("```JSON\n".data ++ (j ++ '\n' :: fence)) = none := rfl
  have hid : goTrimSpace ("```JSON\n".data ++ (j ++ '\n' :: fence))
      = "```JSON\n".data ++ (j ++ '\n' :: fence) :=
    goTrimSpace_id _ backtick backtick hhead (by decide) hlastw (by decide)
  rw [hw]
  unfold cleanJSONResponse
  rw [hid, show goTrimStart fenceJson ("```JSON\n".data ++ (j ++ '\n' :: fence))
      = "```JSON\n".data ++ (j ++ '\n' :: fence) by unfold goTrimStart; rw [hnof], hid,
    show "```JSON\n".data ++ (j ++ '\n' :: fence)
      = fence ++ ("JSON\n".data ++ (j ++ '\n' :: fence)) from rfl,
    goTrimStart_self_append]
  exact clean_tail_upper j hjr

/-! ## Claims C2, C5, C6 -/

/-- Claim C2, counterexample: sanitization is not idempotent.  On the input
`a` followed by six backticks, one pass strips a single trailing fence and a
second pass strips another. -/
theorem C2_not_idempotent_counterexample :
    cleanJSONResponse (cleanJSONResponse ("a``````".data)) ≠
      cleanJSONResponse ("a``````".data) := by decide

/-- Claim C2 (amended): on every input that contains no fence marker
(no occurrence of three backticks), sanitization equals whitespace trimming
and is idempotent, and it is a no-op when the input additionally carries no
surrounding whitespace; on general inputs idempotence fails (see the
counterexample). -/
theorem C2_idempotent_amended (x : Str) (h : ¬ (fence <:+: x)) :
    cleanJSONResponse (cleanJSONResponse x) = cleanJSONResponse x ∧
    cleanJSONResponse x = goTrimSpace x ∧
    (goTrimSpace x = x → cleanJSONResponse x = x) := by
  have hx := clean_no_fence x h
  have h2 : ¬ (fence <:+: goTrimSpace x) := fun hc => h (hc.trans (goTrimSpace_isSub x))
  refine ⟨?_, hx, ?_⟩
  · rw [hx, clean_no_fence _ h2, goTrimSpace_idem]
  · intro ht
    rw [hx, ht]

/-- Witness for C2 (amended) at the concrete inputs `" abc "` and `"abc"`. -/
theorem C2_idempotent_amended_witness :
    cleanJSONResponse (cleanJSONResponse (" abc ".data)) = cleanJSONResponse (" abc ".data) ∧
    cleanJSONResponse ("abc".data) = "abc".data :=
  ⟨(C2_idempotent_amended (" abc ".data) (by decide)).1,
   (C2_idempotent_amended ("abc".data) (by decide)).2.2 (by decide)⟩

/-- Claim C5: for a compact JSON object text `j` (brace-delimited, no
surrounding whitespace), sanitizing the lower-case fenced wrapping
recovers `j`, and sanitizing bare `j` is the identity. -/
theorem C5_roundtrip (j : Str) (h1 : j.head? = some braceOpen)
    (h2 : j.getLast? = some braceClose) :
    cleanJSONResponse ("```json\n".data ++ j ++ "\n```".data) = j ∧
    cleanJSONResponse j = j := by
  have hjr : j.reverse.head? = some braceClose := by
    rw [List.head?_reverse]; exact h2
  exact ⟨clean_fenced_lower j h1 hjr, clean_braced_id j h1 hjr⟩

/-- Witness for C5 at the repository test's own example object. -/
theorem C5_roundtrip_witness :
    cleanJSONResponse ("```json\n".data ++ "\x7b\"key\": \"value\"\x7d".data
        ++ "\n```".data) = "\x7b\"key\": \"value\"\x7d".data ∧
    cleanJSONResponse ("\x7b\"key\": \"value\"\x7d".data)
      = "\x7b\"key\": \"value\"\x7d".data :=
  C5_roundtrip ("\x7b\"key\": \"value\"\x7d".data) (by decide) (by decide)

/-- Claim C6, counterexample: the fence-stripping is not independent of the
case of the language tag.  With an upper-case `JSON` tag the tag text
remains in the output, so the two cleaned texts differ. -/
theorem C6_case_counterexample :
    cleanJSONResponse ("```JSON\n\x7b\"a\":\"b\"\x7d\n```".data) ≠
      cleanJSONResponse ("```json\n\x7b\"a\":\"b\"\x7d\n```".data) := by decide

/-- Claim C6 (amended): `TrimPrefix` is case-sensitive, so only the exact
lower-case tag ```` ```json ```` is stripped; an upper-case ```` ```JSON ````
fence loses only its backticks, leaving `JSON` and the newline at the head
of the cleaned text. -/
theorem C6_case_sensitivity_amended (j : Str) (h1 : j.head? = some braceOpen)
    (h2 : j.getLast? = some braceClose) :
    cleanJSONResponse ("```JSON\n".data ++ j ++ "\n```".data) = "JSON\n".data ++ j ∧
    cleanJSONResponse ("```json\n".data ++ j ++ "\n```".data) = j := by
  have hjr : j.reverse.head? = some braceClose := by
    rw [List.head?_reverse]; exact h2
  exact ⟨clean_fenced_upper j hjr, clean_fenced_lower j h1 hjr⟩

/-- Witness for C6 (amended) at a concrete object text. -/
theorem C6_case_sensitivity_amended_witness :
    cleanJSONResponse ("```JSON\n".data ++ "\x7b\"a\":\"b\"\x7d".data ++ "\n```".data)
      = "JSON\n".data ++ "\x7b\"a\":\"b\"\x7d".data ∧
    cleanJSONResponse ("```json\n".data ++ "\x7b\"a\":\"b\"\x7d".data ++ "\n```".data)
      = "\x7b\"a\":\"b\"\x7d".data :=
  C6_case_sensitivity_amended ("\x7b\"a\":\"b\"\x7d".data) (by decide) (by decide)

/-! ## Lemmas about the decoder -/

theorem idxOfP_some (p : Str → Bool) :
    ∀ (l : List Str) (i : Nat), idxOfP p l = some i →
      i < l.length ∧ p (l.getD i []) = true := by
  intro l
  induction l with
  | nil => intro i h; simp [idxOfP] at h
  | cons t ts ih =>
      intro i h
      by_cases hp : p t
      · simp only [idxOfP, if_pos hp, Option.some.injEq] at h
        subst h
        exact ⟨by simp, by simpa using hp⟩
      · simp only [idxOfP, if_neg hp, Option.map_eq_some'] at h
        obtain ⟨i0, hi0, rfl⟩ := h
        obtain ⟨hlt, hpi⟩ := ih i0 hi0
        exact ⟨by simpa using hlt, by simpa using hpi⟩

theorem idxOfP_exists (p : Str → Bool) :
    ∀ (l : List Str) (i : Nat), i < l.length → p (l.getD i []) = true →
      ∃ j, idxOfP p l = some j := by
  intro l
  induction l with
  | nil => intro i h; simp at h
  | cons t ts ih =>
      intro i hi hp
      by_cases hpt : p t
      · exact ⟨0, by simp [idxOfP, hpt]⟩
      · cases i with
        | zero => simp only [List.getD_cons_zero] at hp; exact absurd hp (by simpa using hpt)
        | succ i0 =>
            obtain ⟨j, hj⟩ := ih i0 (by simpa using hi) (by simpa using hp)
            exact ⟨j + 1, by simp [idxOfP, hpt, hj]⟩

theorem getD_mem (l : List Str) : ∀ i : Nat, i < l.length → l.getD i [] ∈ l := by
  induction l with
  | nil => intro i hi; simp at hi
  | cons t ts ih =>
      intro i hi
      cases i with
      | zero => simp
      | succ i0 =>
          simp only [List.getD_cons_succ]
          exact List.mem_cons_of_mem _ (ih i0 (by simpa using hi))

theorem nodup_getD_inj (l : List Str) (hn : l.Nodup) :
    ∀ i j, i < l.length → j < l.length → l.getD i [] = l.getD j [] → i = j := by
  induction l with
  | nil => intro i j hi; simp at hi
  | cons t ts ih =>
      rw [List.nodup_cons] at hn
      intro i j hi hj h
      cases i with
      | zero =>
          cases j with
          | zero => rfl
          | succ j0 =>
              exfalso
              apply hn.1
              rw [List.getD_cons_zero] at h
              rw [h, List.getD_cons_succ]
              exact getD_mem ts j0 (by simpa using hj)
      | succ i0 =>
          cases j with
          | zero =>
              exfalso
              apply hn.1
              rw [List.getD_cons_zero] at h
              rw [← h, List.getD_cons_succ]
              exact getD_mem ts i0 (by simpa using hi)
          | succ j0 =>
              simp only [List.getD_cons_succ] at h
              rw [ih hn.2 i0 j0 (by simpa using hi) (by simpa using hj) h]

theorem isStr_exists (v : JVal) (h : v.isStr = true) : ∃ s, v = .str s := by
  cases v <;> simp_all [JVal.isStr]

theorem isBool_exists (v : JVal) (h : v.isBool = true) : ∃ b, v = .bool b := by
  cases v <;> simp_all [JVal.isBool]

theorem lookupLast_isSome (t : Str) :
    ∀ kvs : List (Str × JVal), t ∈ kvs.map Prod.fst → ∃ v, lookupLast kvs t = some v := by
  intro kvs
  induction kvs with
  | nil => intro h; simp at h
  | cons p rest ih =>
      intro h
      obtain ⟨k, v⟩ := p
      cases hl : lookupLast rest t with
      | some w => exact ⟨w, by simp [lookupLast, hl]⟩
      | none =>
          simp only [List.map_cons, List.mem_cons] at h
          rcases h with h | h
          · exact ⟨v, by simp [lookupLast, hl, h.symm]⟩
          · obtain ⟨w, hw⟩ := ih h
            rw [hw] at hl
            exact absurd hl (by simp)

/-- The heart of C1/C3/C10: decoding an object whose keys all match declared
tags exactly, with well-typed values, succeeds, and each declared field of
the result holds the last value bound to its tag — or the starting record's
value if the tag is unbound. -/
theorem decodeMembers_exact {α : Type} (S : GoSchema α) (wt : Nat → JVal → Bool)
    (hnd : S.tags.Nodup)
    (hlaw : ∀ (r : α) (i : Nat) (v : JVal), i < S.tags.length → wt i v = true →
        ∃ r2, S.setF r i v = .ok r2 ∧
          ∀ i2, i2 < S.tags.length →
            S.getF r2 i2 = if i2 = i then v else S.getF r i2) :
    ∀ (kvs : List (Str × JVal)) (r : α),
      (∀ p ∈ kvs, ∃ i, i < S.tags.length ∧ S.tags.getD i [] = p.1 ∧ wt i p.2 = true) →
      ∃ r2, decodeMembers S r kvs = .ok r2 ∧
        ∀ i, i < S.tags.length →
          S.getF r2 i = (lookupLast kvs (S.tags.getD i [])).getD (S.getF r i) := by
  intro kvs
  induction kvs with
  | nil =>
      intro r _
      exact ⟨r, rfl, fun i _ => by simp [lookupLast]⟩
  | cons p rest ih =>
      intro r h
      obtain ⟨k, v⟩ := p
      obtain ⟨i0, hi0, htag, hwt⟩ := h (k, v) (by simp)
      have hmatch : matchFieldIdx S.tags k = some i0 := by
        obtain ⟨j, hj⟩ :=
          idxOfP_exists (fun t => decide (t = k)) S.tags i0 hi0 (decide_eq_true htag)
        obtain ⟨hjlt, hjp⟩ := idxOfP_some _ _ _ hj
        have : j = i0 := nodup_getD_inj S.tags hnd j i0 hjlt hi0
          ((of_decide_eq_true hjp).trans htag.symm)
        subst this
        simp [matchFieldIdx, hj]
      obtain ⟨r1, hset, hget⟩ := hlaw r i0 v hi0 hwt
      obtain ⟨r2, hdec, hchar⟩ := ih r1 (fun p hp => h p (by simp [hp]))
      refine ⟨r2, ?_, ?_⟩
      · simp only [decodeMembers, assignKey, hmatch, hset, hdec]
      · intro i hi
        rw [hchar i hi]
        show _ = (lookupLast ((k, v) :: rest) (S.tags.getD i [])).getD (S.getF r i)
        rw [show lookupLast ((k, v) :: rest) (S.tags.getD i [])
            = match lookupLast rest (S.tags.getD i []) with
              | some w => some w
              | none => if k = S.tags.getD i [] then some v else none from rfl]
        cases hl : lookupLast rest (S.tags.getD i []) with
        | some w => simp
        | none =>
            show none.getD (S.getF r1 i)
              = (if k = S.tags.getD i [] then some v else none).getD (S.getF r i)
            rw [Option.getD_none, hget i hi]
            by_cases hii : i = i0
            · subst hii
              rw [if_pos rfl, if_pos htag.symm, Option.getD_some]
            · rw [if_neg hii, if_neg (fun hc : k = S.tags.getD i [] =>
                hii (nodup_getD_inj S.tags hnd i i0 hi hi0 (hc.symm.trans htag.symm))),
                Option.getD_none]

theorem form941Tags_nodup : form941Schema.tags.Nodup := by decide

theorem jobDetailsTags_nodup : jobDetailsSchema.tags.Nodup := by decide

/-- The field law of `Form941.setF`/`Form941.getF`: a well-typed store into a
declared field succeeds and changes exactly that field. -/
theorem setF941_law : ∀ (r : Form941) (i : Nat) (v : JVal),
    i < form941Schema.tags.length → wt941 i v = true →
    ∃ r2, form941Schema.setF r i v = .ok r2 ∧
      ∀ i2, i2 < form941Schema.tags.length →
        form941Schema.getF r2 i2 = if i2 = i then v else form941Schema.getF r i2 := by
  intro r i v hi hwt
  have h19 : form941Schema.tags.length = 19 := rfl
  rw [h19] at hi
  interval_cases i <;>
    [skip; skip; skip; skip; skip; skip; skip;
     (obtain ⟨b, rfl⟩ := isBool_exists v (by simpa [wt941] using hwt)
      refine ⟨_, rfl, ?_⟩
      intro i2 hi2
      rw [h19] at hi2
      interval_cases i2 <;> simp [form941Schema, Form941.getF]);
     skip; skip; skip; skip; skip; skip; skip; skip; skip; skip; skip] <;>
    (obtain ⟨s, rfl⟩ := isStr_exists v (by simpa [wt941] using hwt)
     refine ⟨_, rfl, ?_⟩
     intro i2 hi2
     rw [h19] at hi2
     interval_cases i2 <;> simp [form941Schema, Form941.getF])

/-- The field law of `JobDetails.setF`/`JobDetails.getF`. -/
theorem setFJob_law : ∀ (r : JobDetails) (i : Nat) (v : JVal),
    i < jobDetailsSchema.tags.length → wtJob i v = true →
    ∃ r2, jobDetailsSchema.setF r i v = .ok r2 ∧
      ∀ i2, i2 < jobDetailsSchema.tags.length →
        jobDetailsSchema.getF r2 i2 = if i2 = i then v else jobDetailsSchema.getF r i2 := by
  intro r i v hi hwt
  have h5 : jobDetailsSchema.tags.length = 5 := rfl
  rw [h5] at hi
  obtain ⟨s, rfl⟩ := isStr_exists v (by simpa [wtJob] using hwt)
  interval_cases i <;>
    (refine ⟨_, rfl, ?_⟩
     intro i2 hi2
     rw [h5] at hi2
     interval_cases i2 <;> simp [jobDetailsSchema, JobDetails.getF])

/-- Binding the string-typed `Box 4` key is a type mismatch, whatever the
record so far. -/
theorem box4_assign_err (r : Form941) (s : Str) :
    assignKey form941Schema r ("Box 4".data) (.str s)
      = .error (.typeMismatch ("Box 4".data)) := rfl

/-- An object carrying a string value under the `Box 4` key never decodes:
the in-order member fold hits an error at or before that member. -/
theorem decodeMembers_err_box4 :
    ∀ (kvs : List (Str × JVal)) (r : Form941),
      kvs.any (fun p => decide (p.1 = "Box 4".data) && p.2.isStr) = true →
      ∃ e, decodeMembers form941Schema r kvs = .error e := by
  intro kvs
  induction kvs with
  | nil => intro r h; simp at h
  | cons p rest ih =>
      intro r h
      obtain ⟨k, v⟩ := p
      rw [List.any_cons] at h
      by_cases hk : k = "Box 4".data ∧ v.isStr = true
      · obtain ⟨s, rfl⟩ := isStr_exists v hk.2
        refine ⟨.typeMismatch ("Box 4".data), ?_⟩
        simp only [decodeMembers]
        rw [hk.1, box4_assign_err]
      · have hrest : rest.any (fun p => decide (p.1 = "Box 4".data) && p.2.isStr) = true := by
          rcases (Bool.or_eq_true _ _).mp h with h1 | h2
          · exfalso
            obtain ⟨hd, hs⟩ := Bool.and_eq_true_iff.mp h1
            exact hk ⟨of_decide_eq_true hd, hs⟩
          · exact h2
        cases ha : assignKey form941Schema r k v with
        | error e => exact ⟨e, by simp only [decodeMembers]; rw [ha]⟩
        | ok r1 =>
            obtain ⟨e, he⟩ := ih r1 hrest
            refine ⟨e, ?_⟩
            simp only [decodeMembers]
            rw [ha]
            exact he

/-! ## Claims C1, C3, C10 -/

/-- Claim C1, counterexample: a JSON object missing required fields does not
yield a decode error — it decodes successfully, the missing fields keeping
their zero values.  Here the object carries only `EIN`. -/
theorem C1_missing_field_counterexample :
    unmarshalForm941 ("\x7b\"EIN\":\"1\"\x7d".data)
      = .ok { Form941.zero with EIN := "1".data } := rfl

/-- Claim C1 (amended): a boolean field (`Box 4`) expressed as a string does
yield a decode error, but a missing required field does not — the decode
succeeds and absent fields keep the zero value, each present field holding
its bound value. -/
theorem C1_decode_failure_amended :
    (∀ s kvs, parseJSONText s = some (.obj kvs) →
      kvs.any (fun p => decide (p.1 = "Box 4".data) && p.2.isStr) = true →
      ∃ e, unmarshalForm941 s = .error e) ∧
    (∀ s kvs, parseJSONText s = some (.obj kvs) →
      (kvs.all (fun p => match idxOfP (fun t => t = p.1) form941Schema.tags with
        | some i => wt941 i p.2
        | none => false)) = true →
      ∃ r, unmarshalForm941 s = .ok r ∧
        ∀ i, i < form941Schema.tags.length →
          form941Schema.getF r i
            = (lookupLast kvs (form941Schema.tags.getD i [])).getD
                (form941Schema.getF Form941.zero i)) := by
  constructor
  · intro s kvs hp hb
    unfold unmarshalForm941 goUnmarshal
    rw [hp]
    exact decodeMembers_err_box4 kvs Form941.zero hb
  · intro s kvs hp hall
    unfold unmarshalForm941 goUnmarshal
    rw [hp]
    apply decodeMembers_exact form941Schema wt941 form941Tags_nodup setF941_law
    intro p hpmem
    have hmem := List.all_eq_true.mp hall p hpmem
    cases hidx : idxOfP (fun t => t = p.1) form941Schema.tags with
    | none => rw [hidx] at hmem; exact absurd hmem (by simp)
    | some i =>
        rw [hidx] at hmem
        obtain ⟨hlt, hpi⟩ := idxOfP_some _ _ _ hidx
        exact ⟨i, hlt, of_decide_eq_true hpi, hmem⟩

/-- Witness for C1 (amended): `Box 4` bound to the string `"true"` errors;
an object carrying only `EIN` decodes with all other fields at zero. -/
theorem C1_decode_failure_amended_witness :
    (∃ e, unmarshalForm941 ("\x7b\"Box 4\":\"true\"\x7d".data) = .error e) ∧
    (∃ r, unmarshalForm941 ("\x7b\"EIN\":\"1\"\x7d".data) = .ok r ∧
      ∀ i, i < form941Schema.tags.length →
        form941Schema.getF r i
          = (lookupLast [("EIN".data, JVal.str "1".data)]
              (form941Schema.tags.getD i [])).getD
              (form941Schema.getF Form941.zero i)) :=
  ⟨C1_decode_failure_amended.1 ("\x7b\"Box 4\":\"true\"\x7d".data)
      [("Box 4".data, JVal.str "true".data)] (by rfl) (by rfl),
   C1_decode_failure_amended.2 ("\x7b\"EIN\":\"1\"\x7d".data)
      [("EIN".data, JVal.str "1".data)] (by rfl) (by rfl)⟩

/-- Claim C3: decoding is total and faithful on exact well-typed input, for
both schemas: when the text scans to an object whose keys are exactly the
schema's field names with correctly-typed values, decode succeeds and each
field holds the value bound to its tag. -/
theorem C3_decode_total_faithful :
    (∀ s kvs, parseJSONText s = some (.obj kvs) →
      (kvs.all (fun p => match idxOfP (fun t => t = p.1) form941Schema.tags with
        | some i => wt941 i p.2
        | none => false)) = true →
      (form941Schema.tags.all (fun t => decide (t ∈ kvs.map Prod.fst))) = true →
      ∃ r, unmarshalForm941 s = .ok r ∧
        ∀ i, i < form941Schema.tags.length →
          ∃ v, lookupLast kvs (form941Schema.tags.getD i []) = some v ∧
            form941Schema.getF r i = v) ∧
    (∀ s kvs, parseJSONText s = some (.obj kvs) →
      (kvs.all (fun p => match idxOfP (fun t => t = p.1) jobDetailsSchema.tags with
        | some i => wtJob i p.2
        | none => false)) = true →
      (jobDetailsSchema.tags.all (fun t => decide (t ∈ kvs.map Prod.fst))) = true →
      ∃ r, unmarshalJobDetails s = .ok r ∧
        ∀ i, i < jobDetailsSchema.tags.length →
          ∃ v, lookupLast kvs (jobDetailsSchema.tags.getD i []) = some v ∧
            jobDetailsSchema.getF r i = v) := by
  constructor
  · intro s kvs hp hall hcov
    unfold unmarshalForm941 goUnmarshal
    rw [hp]
    obtain ⟨r, hr, hchar⟩ :=
      decodeMembers_exact form941Schema wt941 form941Tags_nodup setF941_law kvs
        Form941.zero (by
          intro p hpmem
          have hmem := List.all_eq_true.mp hall p hpmem
          cases hidx : idxOfP (fun t => t = p.1) form941Schema.tags with
          | none => rw [hidx] at hmem; exact absurd hmem (by simp)
          | some i =>
              rw [hidx] at hmem
              obtain ⟨hlt, hpi⟩ := idxOfP_some _ _ _ hidx
              exact ⟨i, hlt, of_decide_eq_true hpi, hmem⟩)
    refine ⟨r, hr, ?_⟩
    intro i hi
    have hmemtag : form941Schema.tags.getD i [] ∈ kvs.map Prod.fst :=
      of_decide_eq_true (List.all_eq_true.mp hcov _ (getD_mem _ i hi))
    obtain ⟨v, hv⟩ := lookupLast_isSome _ kvs hmemtag
    refine ⟨v, hv, ?_⟩
    rw [hchar i hi, hv, Option.getD_some]
  · intro s kvs hp hall hcov
    unfold unmarshalJobDetails goUnmarshal
    rw [hp]
    obtain ⟨r, hr, hchar⟩ :=
      decodeMembers_exact jobDetailsSchema wtJob jobDetailsTags_nodup setFJob_law kvs
        JobDetails.zero (by
          intro p hpmem
          have hmem := List.all_eq_true.mp hall p hpmem
          cases hidx : idxOfP (fun t => t = p.1) jobDetailsSchema.tags with
          | none => rw [hidx] at hmem; exact absurd hmem (by simp)
          | some i =>
              rw [hidx] at hmem
              obtain ⟨hlt, hpi⟩ := idxOfP_some _ _ _ hidx
              exact ⟨i, hlt, of_decide_eq_true hpi, hmem⟩)
    refine ⟨r, hr, ?_⟩
    intro i hi
    have hmemtag : jobDetailsSchema.tags.getD i [] ∈ kvs.map Prod.fst :=
      of_decide_eq_true (List.all_eq_true.mp hcov _ (getD_mem _ i hi))
    obtain ⟨v, hv⟩ := lookupLast_isSome _ kvs hmemtag
    refine ⟨v, hv, ?_⟩
    rw [hchar i hi, hv, Option.getD_some]

set_option maxRecDepth 100000 in
/-- Witness for C3 at a full 19-field Form 941 object and the spec's
Scenario A `job_details` object. -/
theorem C3_decode_total_faithful_witness :
    (∃ r, unmarshalForm941 form941ExampleText = .ok r ∧
      ∀ i, i < form941Schema.tags.length →
        ∃ v, lookupLast form941ExampleKvs (form941Schema.tags.getD i []) = some v ∧
          form941Schema.getF r i = v) ∧
    (∃ r, unmarshalJobDetails jobExampleText = .ok r ∧
      ∀ i, i < jobDetailsSchema.tags.length →
        ∃ v, lookupLast jobExampleKvs (jobDetailsSchema.tags.getD i []) = some v ∧
          jobDetailsSchema.getF r i = v) :=
  ⟨C3_decode_total_faithful.1 form941ExampleText form941ExampleKvs (by rfl) (by rfl)
      (by rfl),
   C3_decode_total_faithful.2 jobExampleText jobExampleKvs (by rfl) (by rfl) (by rfl)⟩

/-- Claim C10: the decoder matches keys to tags ASCII-case-insensitively
(the prompt's `Trade name` populates the field declared `Trade Name`) and
silently ignores keys matching no declared tag (the prompt's extra
`Box 15`), so a response carrying both still decodes. -/
theorem C10_case_insensitive_and_unknown_keys :
    (∀ (r : Form941) (s : Str),
      assignKey form941Schema r ("Trade name".data) (.str s)
        = .ok { r with TradeName := s }) ∧
    (∀ (r : Form941) (v : JVal),
      assignKey form941Schema r ("Box 15".data) v = .ok r) ∧
    unmarshalForm941 ("\x7b\"Trade name\":\"X\",\"Box 15\":\"$1.00\"\x7d".data)
      = .ok { Form941.zero with TradeName := "X".data } :=
  ⟨fun _ _ => rfl, fun _ _ => rfl, rfl⟩

/-! ## Claim C7: the prompts' example keys versus the schema tags -/

set_option maxRecDepth 1000000 in
/-- Claim C7, counterexample: the Form 941 instruction's example keys do not
match the schema's declared field names verbatim — the declared tag
`Trade Name` never appears as an example key (the prompt writes
`Trade name`), and the prompt carries an extra key `Box 15` that no declared
field bears. -/
theorem C7_prompt_keys_counterexample :
    "Trade Name".data ∈ form941Schema.tags ∧
    ("Trade Name".data ∈ quotedKeys form941Prompt → False) ∧
    "Box 15".data ∈ quotedKeys form941Prompt ∧
    ("Box 15".data ∈ form941Schema.tags → False) := by decide

set_option maxRecDepth 1000000 in
/-- Claim C7 (amended): the `job_details` instruction's example keys are
exactly its schema's field names, in declaration order; the Form 941
instruction's example keys cover every declared field name only up to ASCII
case (`Trade name` for the declared `Trade Name`) and carry one extra key,
`Box 15`, that is not a declared field. -/
theorem C7_prompt_keys_amended :
    quotedKeys jobDetailsPrompt = jobDetailsSchema.tags ∧
    quotedKeys form941Prompt
      = (["EIN", "Name", "Trade name", "Address", "Box 1", "Box 2", "Box 3", "Box 4",
          "Box 5e", "Box 5f", "Box 6", "Box 7", "Box 8", "Box 9", "Box 10", "Box 11",
          "Box 12", "Box 13", "Box 14", "Box 15"].map String.data) ∧
    (∀ t ∈ form941Schema.tags, ∃ k ∈ quotedKeys form941Prompt, eqFold k t = true) := by
  refine ⟨by decide, by decide, by decide⟩

set_option maxRecDepth 1000000 in
/-- Witness for C7 (amended) at the declared tag `Trade Name`: some example
key matches it up to ASCII case. -/
theorem C7_prompt_keys_amended_witness :
    ∃ k ∈ quotedKeys form941Prompt, eqFold k ("Trade Name".data) = true :=
  C7_prompt_keys_amended.2.2 ("Trade Name".data) (by decide)

/-! ## Lemmas about the pipeline -/

/-- When the document type resolves to an instruction, the pipeline sends the
model exactly one request: the instruction as its text part and the file
bytes as a blob tagged with the declared media type. -/
theorem parseDocumentRun_log {α : Type} (S : GoSchema α) (fc : List Nat) (mt : Str)
    (dt : Str) (gen : List Part → GenOutcome) (instr : Str)
    (h : (if dt = jobDetailsType then some jobDetailsPrompt
          else if dt = form941Type then some form941Prompt else none) = some instr) :
    (parseDocumentRun S fc mt dt gen).2 = [[.text instr, .blob mt fc]] := by
  unfold parseDocumentRun
  rw [h]
  dsimp only
  cases hg : gen [Part.text instr, Part.blob mt fc] with
  | failure msg => rfl
  | success resp =>
      obtain ⟨cands⟩ := resp
      cases cands with
      | nil => rfl
      | cons c0 crest =>
          obtain ⟨parts⟩ := c0
          cases parts with
          | nil => rfl
          | cons p0 prest =>
              cases p0 with
              | other => rfl
              | text content =>
                  dsimp only
                  cases goUnmarshal S (cleanJSONResponse content) <;> rfl

/-- Every failure path of the pipeline returns the schema's zero value. -/
theorem parseDocumentRun_zero {α : Type} (S : GoSchema α) (fc : List Nat) (mt : Str)
    (dt : Str) (gen : List Part → GenOutcome) :
    ((parseDocumentRun S fc mt dt gen).1.2).isSome = true →
    (parseDocumentRun S fc mt dt gen).1.1 = S.zero := by
  unfold parseDocumentRun
  cases hif : (if dt = jobDetailsType then some jobDetailsPrompt
          else if dt = form941Type then some form941Prompt else none) with
  | none => intro _; rfl
  | some si =>
      dsimp only
      cases hg : gen [Part.text si, Part.blob mt fc] with
      | failure msg => intro _; rfl
      | success resp =>
          obtain ⟨cands⟩ := resp
          cases cands with
          | nil => intro _; rfl
          | cons c0 crest =>
              obtain ⟨parts⟩ := c0
              cases parts with
              | nil => intro _; rfl
              | cons p0 prest =>
                  cases p0 with
                  | other => intro _; rfl
                  | text content =>
                      dsimp only
                      cases goUnmarshal S (cleanJSONResponse content) with
                      | error e => intro _; rfl
                      | ok result => intro hcontra; simp at hcontra

/-! ## Claims C4, C8, C9 -/

/-- Claim C4: a document type that is neither `job_details` nor `form_941`
short-circuits with the unsupported-document-type error and an empty call
log — the model collaborator is never invoked — for both result schemas. -/
theorem C4_unsupported_short_circuit (dt : Str) (fc : List Nat) (mt : Str)
    (gen : List Part → GenOutcome)
    (h1 : dt ≠ jobDetailsType) (h2 : dt ≠ form941Type) :
    parseDocumentRun form941Schema fc mt dt gen
      = ((Form941.zero, some (.unsupportedDocumentType dt)), []) ∧
    parseDocumentRun jobDetailsSchema fc mt dt gen
      = ((JobDetails.zero, some (.unsupportedDocumentType dt)), []) := by
  constructor <;> (unfold parseDocumentRun; rw [if_neg h1, if_neg h2]; rfl)

/-- Witness for C4 at the spec's Scenario C input `unknown_type`. -/
theorem C4_unsupported_short_circuit_witness :
    parseDocumentRun form941Schema [] [] ("unknown_type".data) (fun _ => .failure [])
      = ((Form941.zero, some (.unsupportedDocumentType ("unknown_type".data))), []) ∧
    parseDocumentRun jobDetailsSchema [] [] ("unknown_type".data) (fun _ => .failure [])
      = ((JobDetails.zero, some (.unsupportedDocumentType ("unknown_type".data))), []) :=
  C4_unsupported_short_circuit ("unknown_type".data) [] []
    (fun _ => .failure []) (by decide) (by decide)

/-- Claim C8: the instruction text is a function of the document type alone,
and the file bytes travel only in the blob part: for a supported type there
is a single instruction text, fixed by the type, such that every run logs
exactly one model call `[text instruction, blob mediaType fileBytes]` —
whatever the file bytes, media type, or model behaviour. -/
theorem C8_instruction_deterministic {α : Type} (S : GoSchema α) (dt : Str)
    (h : dt = jobDetailsType ∨ dt = form941Type) :
    ∃ instr,
      (dt = jobDetailsType → instr = jobDetailsPrompt) ∧
      (dt = form941Type → instr = form941Prompt) ∧
      ∀ (fc : List Nat) (mt : Str) (gen : List Part → GenOutcome),
        (parseDocumentRun S fc mt dt gen).2 = [[.text instr, .blob mt fc]] := by
  rcases h with h | h
  · refine ⟨jobDetailsPrompt, fun _ => rfl,
      fun hf => absurd (h.symm.trans hf) (by decide), ?_⟩
    intro fc mt gen
    exact parseDocumentRun_log S fc mt dt gen jobDetailsPrompt (by rw [h]; rfl)
  · refine ⟨form941Prompt,
      fun hj => absurd (hj.symm.trans h) (by decide), fun _ => rfl, ?_⟩
    intro fc mt gen
    exact parseDocumentRun_log S fc mt dt gen form941Prompt (by rw [h]; rfl)

/-- Witness for C8 at the `form_941` document type. -/
theorem C8_instruction_deterministic_witness :
    ∃ instr,
      (form941Type = jobDetailsType → instr = jobDetailsPrompt) ∧
      (form941Type = form941Type → instr = form941Prompt) ∧
      ∀ (fc : List Nat) (mt : Str) (gen : List Part → GenOutcome),
        (parseDocumentRun form941Schema fc mt form941Type gen).2
          = [[.text instr, .blob mt fc]] :=
  C8_instruction_deterministic form941Schema form941Type (Or.inr rfl)

/-- Claim C9: on every failure path the pipeline's returned record is the
zero value of the target schema — all string fields empty and the boolean
false — so an error never accompanies partially extracted data. -/
theorem C9_zero_record_on_failure :
    (∀ (fc : List Nat) (mt dt : Str) (gen : List Part → GenOutcome),
      ((parseDocumentRun form941Schema fc mt dt gen).1.2).isSome = true →
      (parseDocumentRun form941Schema fc mt dt gen).1.1 = Form941.zero) ∧
    (∀ (fc : List Nat) (mt dt : Str) (gen : List Part → GenOutcome),
      ((parseDocumentRun jobDetailsSchema fc mt dt gen).1.2).isSome = true →
      (parseDocumentRun jobDetailsSchema fc mt dt gen).1.1 = JobDetails.zero) ∧
    Form941.zero
      = ⟨[], [], [], [], [], [], [], false, [], [], [], [], [], [], [], [], [], [], []⟩ ∧
    JobDetails.zero = ⟨[], [], [], [], []⟩ :=
  ⟨fun fc mt dt gen => parseDocumentRun_zero form941Schema fc mt dt gen,
   fun fc mt dt gen => parseDocumentRun_zero jobDetailsSchema fc mt dt gen,
   rfl, rfl⟩

/-- Witness for C9 at a concrete failing run (unsupported type, model double
that would fail anyway). -/
theorem C9_zero_record_on_failure_witness :
    (parseDocumentRun form941Schema [] [] ("x".data) (fun _ => .failure [])).1.1
      = Form941.zero ∧
    (parseDocumentRun jobDetailsSchema [] [] ("x".data) (fun _ => .failure [])).1.1
      = JobDetails.zero :=
  ⟨C9_zero_record_on_failure.1 [] [] ("x".data) (fun _ => .failure []) rfl,
   C9_zero_record_on_failure.2.1 [] [] ("x".data) (fun _ => .failure []) rfl⟩

end DocParsing
